import Mathlib

/-!
Verification of the conflict-detection, slot-suggestion and conversation-flow
core of the voice scheduling agent backend.

Shallow embedding conventions:
* Timezone-aware instants are modelled as `Int` minutes since an arbitrary
  epoch.  `datetime.astimezone` preserves the instant, so normalising an
  aware datetime to another timezone is the identity on this representation;
  wall-clock field access (`replace(hour=..)`) is modelled for a fixed-offset
  zone via day arithmetic on the same scale.
* Google calendar events, as consumed by `CalendarService`, carry optional
  parsed `start`/`end` dateTime values.  An absent value models a missing
  `dateTime` field (the code skips such events).
* Fallible Python code (`raise`) is modelled with `Option`/an error result.
-/

namespace VSA

/-- `CalendarService.BUFFER_MINUTES` (calendar_service.py line 21). -/
def BUFFER_MINUTES : Int := 15

/-- `CalendarService.DEFAULT_MEETING_DURATION` (line 22), in minutes. -/
def DEFAULT_MEETING_DURATION : Int := 60

/-- An existing Google-calendar event as consumed by the conflict logic:
the parsed, timezone-aware `start`/`end` dateTime instants (minutes since
epoch), `none` when the corresponding `dateTime` field is absent. -/
structure GEvent where
  startT : Option Int
  endT : Option Int
deriving DecidableEq, Repr

/-- The buffered-overlap test of `has_conflict_with_buffer` (lines 91-94):
`overlap = not (new_end <= existing_start - buffer or
new_start >= existing_end + buffer)`. -/
def overlapsBuffered (newStart newEnd exStart exEnd : Int) : Bool :=
  !(decide (newEnd ≤ exStart - BUFFER_MINUTES) ||
    decide (newStart ≥ exEnd + BUFFER_MINUTES))

/-- `CalendarService.has_conflict_with_buffer` (lines 70-99).  Events missing
a start or an end are skipped; both endpoints are normalised to
`new_start`'s timezone (identity on instants) and the buffered overlap is
tested; the loop returns `True` on the first overlap, else `False`. -/
def has_conflict_with_buffer (existingEvents : List GEvent)
    (newStart newEnd : Int) : Bool :=
  existingEvents.any fun e =>
    match e.startT, e.endT with
    | some s, some en => overlapsBuffered newStart newEnd s en
    | _, _ => false

/-- Stable insertion step: `a` is placed before the first element it compares
at-most-equal to, so elements inserted later (earlier in the original list
under `insertionSortB`) precede their equals, as Python's stable `sorted`. -/
def orderedInsertB (le : α → α → Bool) (a : α) : List α → List α
  | [] => [a]
  | b :: l => if le a b then a :: b :: l else b :: orderedInsertB le a l

/-- Stable sort modelling Python's `sorted(...)` / `list.sort(...)`. -/
def insertionSortB (le : α → α → Bool) : List α → List α
  | [] => []
  | a :: l => orderedInsertB le a (insertionSortB le l)

/-- Sorting key used by `suggest_next_slot` (line 103): Python sorts by the
ISO `dateTime` string; for strings rendered with a common UTC offset the
lexicographic order coincides with the chronological order modelled here.
A missing start sorts as 0 (Python would raise comparing `None`). -/
def sortByStart (events : List GEvent) : List GEvent :=
  insertionSortB (fun a b => decide (a.startT.getD 0 ≤ b.startT.getD 0)) events

/-- The sweep loop of `suggest_next_slot` (lines 103-117): for each event in
sorted order, if the cursor plus the duration fits at or before
`event.start - buffer`, return the cursor, else advance the cursor past
`event.end + buffer`; events without both dateTimes are skipped. -/
def nextSlotLoop (durationMinutes : Int) : List GEvent → Int → Int
  | [], current => current
  | e :: rest, current =>
    match e.startT, e.endT with
    | some exStart, some exEnd =>
      if current + durationMinutes ≤ exStart - BUFFER_MINUTES then current
      else nextSlotLoop durationMinutes rest (max current (exEnd + BUFFER_MINUTES))
    | _, _ => nextSlotLoop durationMinutes rest current

/-- `CalendarService.suggest_next_slot` (lines 101-119). -/
def suggest_next_slot (existingEvents : List GEvent)
    (desiredStart durationMinutes : Int) : Int :=
  nextSlotLoop durationMinutes (sortByStart existingEvents) desiredStart

/-- The loop of `_find_available_slot_in_range` (lines 205-238): events fully
outside `[rangeStart, rangeEnd]` are skipped; a cursor that fits before the
next in-range event (and inside the range) is returned; otherwise the cursor
advances past the event; at the end the remaining space of the range is
tried. -/
def findSlotLoop (rangeStart rangeEnd durationMinutes : Int) :
    List GEvent → Int → Option Int
  | [], current =>
    if current + durationMinutes ≤ rangeEnd then some current else none
  | e :: rest, current =>
    match e.startT, e.endT with
    | some exStart, some exEnd =>
      if exEnd ≤ rangeStart ∨ exStart ≥ rangeEnd then
        findSlotLoop rangeStart rangeEnd durationMinutes rest current
      else if current + durationMinutes ≤ exStart - BUFFER_MINUTES ∧
          current + durationMinutes ≤ rangeEnd then
        some current
      else
        findSlotLoop rangeStart rangeEnd durationMinutes rest
          (max current (exEnd + BUFFER_MINUTES))
    | _, _ => findSlotLoop rangeStart rangeEnd durationMinutes rest current

/-- `CalendarService._find_available_slot_in_range` (lines 205-238). -/
def find_available_slot_in_range (existingEvents : List GEvent)
    (rangeStart rangeEnd durationMinutes : Int) : Option Int :=
  findSlotLoop rangeStart rangeEnd durationMinutes (sortByStart existingEvents)
    rangeStart

/-- Strategy tags of `suggest_multiple_slots`. -/
inductive Strategy where
  | next_available
  | earlier_same_day
  | next_day_same_time
  | next_day_available
  | common_time
deriving DecidableEq, Repr

/-- A suggested slot (`{'start': .., 'end': .., 'strategy': ..}` dict). -/
structure Slot where
  startT : Int
  endT : Int
  strategy : Strategy
deriving DecidableEq, Repr

/-- Start of the calendar day containing a wall-clock instant `t`
(fixed-offset zone: day boundaries every 1440 minutes). -/
def dayStart (t : Int) : Int := Int.fdiv t 1440 * 1440

/-- `desired_start.replace(hour=h, minute=0, second=0, microsecond=0)`. -/
def replaceHour (t h : Int) : Int := dayStart t + h * 60

/-- Strategy 4 loop of `suggest_multiple_slots` (lines 174-190): for each
common hour, if the candidate differs from the desired start, lies in the
future and is not already suggested, and is conflict-free, append it and
stop once the raw suggestion list reaches `num_suggestions`. -/
def commonTimeLoop (existingEvents : List GEvent) (desiredStart dur now : Int)
    (numSuggestions : Nat) : List Int → List Slot → List Slot
  | [], sugs => sugs
  | h :: rest, sugs =>
    let c := replaceHour desiredStart h
    if c ≠ desiredStart ∧ c > now ∧ ¬ (sugs.map Slot.startT).contains c then
      if ¬ has_conflict_with_buffer existingEvents c (c + dur) then
        let sugs' := sugs ++ [⟨c, c + dur, .common_time⟩]
        if numSuggestions ≤ sugs'.length then sugs'
        else commonTimeLoop existingEvents desiredStart dur now numSuggestions
          rest sugs'
      else commonTimeLoop existingEvents desiredStart dur now numSuggestions
        rest sugs
    else commonTimeLoop existingEvents desiredStart dur now numSuggestions
      rest sugs

/-- Final deduplication loop of `suggest_multiple_slots` (lines 192-201):
suggestions are deduplicated by start timestamp (the strftime key
`"%Y-%m-%d %H:%M"` is injective on minute-valued instants) and collection
stops once `num_suggestions` unique slots are gathered. -/
def dedupLoop (numSuggestions : Nat) :
    List Slot → List Int → List Slot → List Slot
  | [], _, unique => unique
  | s :: rest, seen, unique =>
    if seen.contains s.startT then dedupLoop numSuggestions rest seen unique
    else
      let unique' := unique ++ [s]
      if numSuggestions ≤ unique'.length then unique'
      else dedupLoop numSuggestions rest (s.startT :: seen) unique'

/-- `unique_suggestions[:num_suggestions]` after the dedup loop. -/
def dedupTake (numSuggestions : Nat) (sugs : List Slot) : List Slot :=
  (dedupLoop numSuggestions sugs [] []).take numSuggestions

/-- `CalendarService.suggest_multiple_slots` (lines 121-203).  The two
environment interactions are passed as arguments: `nextDayEvents` is the
result of the `fetch_existing_events` call of strategy 3 (line 154) and
`now` is `datetime.now(desired_start.tzinfo)` of strategy 4 (line 179). -/
def suggest_multiple_slots (existingEvents : List GEvent)
    (desiredStart durationMinutes : Int) (numSuggestions : Nat)
    (nextDayEvents : List GEvent) (now : Int) : List Slot :=
  let nextSlot := suggest_next_slot existingEvents desiredStart durationMinutes
  let sugs1 : List Slot :=
    [⟨nextSlot, nextSlot + durationMinutes, .next_available⟩]
  let sameDayStart := replaceHour desiredStart 9
  let sugs2 :=
    if sameDayStart < desiredStart then
      match find_available_slot_in_range existingEvents sameDayStart
          desiredStart durationMinutes with
      | some earlier =>
        if ¬ (sugs1.map Slot.startT).contains earlier then
          sugs1 ++ [⟨earlier, earlier + durationMinutes, .earlier_same_day⟩]
        else sugs1
      | none => sugs1
    else sugs1
  let nextDaySlot := desiredStart + 1440
  let sugs3 :=
    if ¬ has_conflict_with_buffer nextDayEvents nextDaySlot
        (nextDaySlot + durationMinutes) then
      sugs2 ++ [⟨nextDaySlot, nextDaySlot + durationMinutes,
        .next_day_same_time⟩]
    else
      let tomorrowAvailable :=
        suggest_next_slot nextDayEvents nextDaySlot durationMinutes
      if ¬ (sugs2.map Slot.startT).contains tomorrowAvailable then
        sugs2 ++ [⟨tomorrowAvailable, tomorrowAvailable + durationMinutes,
          .next_day_available⟩]
      else sugs2
  let sugs4 := commonTimeLoop existingEvents desiredStart durationMinutes now
    numSuggestions [10, 14, 16] sugs3
  dedupTake numSuggestions sugs4

/-- Python regex word character `\w` (ASCII range, which covers the parsed
utterances). -/
def isWordChar (c : Char) : Bool := c.isAlpha || c.isDigit || c == '_'

/-- Python `str.strip()`. -/
def stripChars (s : List Char) : List Char :=
  ((s.dropWhile Char.isWhitespace).reverse.dropWhile Char.isWhitespace).reverse

/-- Python `str.lower()`. -/
def lowerChars (s : List Char) : List Char := s.map Char.toLower

/-- Python `str.strip()` on `String` values. -/
def pyStrip (s : String) : String := ⟨stripChars s.data⟩

/-- Python `str.lower()` on `String` values. -/
def pyLower (s : String) : String := ⟨lowerChars s.data⟩

/-- `re.search` of a literal pattern: `pat` occurs as a contiguous
substring of `s`. -/
def containsSub (pat : List Char) : List Char → Bool
  | [] => pat.isEmpty
  | c :: rest => pat.isPrefixOf (c :: rest) || containsSub pat rest

/-- `pat` matches at the head of `s` and the character right after it (if
any) is not a word character (the trailing `\b`). -/
def boundaryPrefix (pat s : List Char) : Bool :=
  match pat, s with
  | [], [] => true
  | [], c :: _ => !isWordChar c
  | _ :: _, [] => false
  | p :: ps, c :: cs => p == c && boundaryPrefix ps cs

/-- Scan for a whole-word occurrence of `pat`: a position whose preceding
character (if any) is not a word character starts `pat`, and the match is
followed by a non-word character or the end. -/
def wordSearchAux (pat : List Char) : Bool → List Char → Bool
  | _, [] => false
  | prevIsWord, c :: cs =>
    (!prevIsWord && boundaryPrefix pat (c :: cs)) ||
      wordSearchAux pat (isWordChar c) cs

/-- `re.search` of a word-bounded pattern such as `\bno\b`. -/
def searchWordPat (pat s : List Char) : Bool := wordSearchAux pat false s

/-- The rejection check of `process_conflict_selection` (conversation_flow.py
lines 61-66): the keywords in source order; `no` is word-boundary matched,
the rest are plain substring searches. -/
def isRejection (s : List Char) : Bool :=
  containsSub ("different".toList) s || containsSub ("other".toList) s ||
  containsSub ("another".toList) s || containsSub ("none".toList) s ||
  containsSub ("neither".toList) s || searchWordPat ("no".toList) s ||
  containsSub ("cancel".toList) s

/-- Numeric value of a decimal digit character. -/
def digitVal (c : Char) : Nat := c.toNat - 48

/-- Python `int` of a digit run. -/
def natOfDigits (ds : List Char) : Nat :=
  ds.foldl (fun n c => n * 10 + digitVal c) 0

/-- The keyword alternatives of the first option pattern (line 72). -/
def optionKeywords : List (List Char) :=
  ["option".toList, "choice".toList, "number".toList, "pick".toList,
   "select".toList]

/-- Match the regex `(?:option|choice|number|pick|select)\s*(\d+)` anchored
at the current position: since the keywords start with pairwise distinct
letters, the ordered alternation is deterministic; the captured group is the
maximal digit run after optional whitespace. -/
def matchOptionNumAt (s : List Char) : Option Nat :=
  (optionKeywords.filterMap fun kw =>
    if kw.isPrefixOf s then
      let rest := (s.drop kw.length).dropWhile Char.isWhitespace
      let ds := rest.takeWhile Char.isDigit
      if ds.isEmpty then none else some (natOfDigits ds)
    else none).head?

/-- Leftmost `re.search` of the keyword-digit pattern. -/
def searchOptionNum : List Char → Option Nat
  | [] => none
  | c :: cs =>
    match matchOptionNumAt (c :: cs) with
    | some n => some n
    | none => searchOptionNum cs

/-- Result of `process_conflict_selection`: an option index, the string
`'different'`, or `None`. -/
inductive Selection where
  | index (n : Nat)
  | different
  | noSelection
deriving DecidableEq, Repr

/-- Search for any of the word-bounded alternatives (one alternation group
such as `\b(?:first|one|1st)\b`); `re.search` truthiness only needs some
position and some alternative to match. -/
def searchAnyWord (pats : List (List Char)) (s : List Char) : Bool :=
  pats.any fun p => searchWordPat p s

/-- The ordinal word patterns in the insertion order of the `text_mappings`
dict (lines 92-96). -/
def textMappings : List (List (List Char) × Nat) :=
  [(["first".toList, "one".toList, "1st".toList], 1),
   (["second".toList, "two".toList, "2nd".toList], 2),
   (["third".toList, "three".toList, "3rd".toList], 3)]

/-- The `text_mappings` loop: the first pattern that matches wins. -/
def firstTextMapping (s : List Char) :
    List (List (List Char) × Nat) → Option Nat
  | [] => none
  | (pats, n) :: rest =>
    if searchAnyWord pats s then some n else firstTextMapping s rest

/-- `process_conflict_selection` (conversation_flow.py lines 52-103).  The
session state enters only through the stored conflict suggestions
(`session.get('conflict_data', {}).get('suggestions', [])`), of which the
parser reads the length.  Rejection keywords are checked first; then the
keyword-digit pattern and the bare-digit pattern `^(\d+)$`, whose numbers
are accepted only within `1..len(suggestions)`; finally the ordinal word
mappings in order. -/
def process_conflict_selection (userInput : List Char)
    (suggestions : List Slot) : Selection :=
  let s := stripChars (lowerChars userInput)
  if isRejection s then .different
  else
    let fromKeyword :=
      match searchOptionNum s with
      | some n => if 1 ≤ n ∧ n ≤ suggestions.length then some n else none
      | none => none
    match fromKeyword with
    | some n => .index n
    | none =>
      let fromBare :=
        if ¬ s.isEmpty ∧ s.all Char.isDigit then
          let n := natOfDigits s
          if 1 ≤ n ∧ n ≤ suggestions.length then some n else none
        else none
      match fromBare with
      | some n => .index n
      | none =>
        match firstTextMapping s textMappings with
        | some n => .index n
        | none => .noSelection

/-- A sample stored-suggestion list with three entries, used to instantiate
session-dependent statements. -/
def sampleSuggestions : List Slot :=
  [⟨600, 660, .next_available⟩, ⟨720, 780, .earlier_same_day⟩,
   ⟨840, 900, .next_day_same_time⟩]

/-- A calendar event as consumed by `find_event` (lines 300-374): the raw
dict may carry a title under `summary` or `title`, and has a parsed start
instant. -/
structure CalEvent where
  summary : Option String
  title : Option String
  startT : Int
deriving DecidableEq, Repr

/-- `(e.get('summary') or e.get('title') or "").strip()` — Python `or`
returns the first non-empty string. -/
def eventTitle (e : CalEvent) : String :=
  let s1 := e.summary.getD ""
  pyStrip (if s1 ≠ "" then s1 else e.title.getD "")

/-- The scoring loop of `find_event` (lines 341-347): every event whose
resolved title is non-empty is scored with `fuzz.ratio` (modelled by the
abstract scorer `ratio`) against the normalised query, case-insensitively. -/
def titledScored (ratio : String → String → Int) (queryTitle : String)
    (events : List CalEvent) : List (Int × CalEvent) :=
  events.filterMap fun e =>
    let t := eventTitle e
    if t = "" then none else some (ratio queryTitle (pyLower t), e)

/-- Time proximity of an event start to the target, the tie-breaking key
(line 356); the absolute difference in minutes orders as the absolute
difference of `total_seconds()`. -/
def proximityKey (targetStart : Int) (e : CalEvent) : Int :=
  |e.startT - targetStart|

/-- The sort key comparison of `scored_events.sort` (lines 353-358):
ascending lexicographic order on `(-score, proximity)`, i.e. score
descending with ties broken by time proximity. -/
def scoredLe (targetStart : Int) (a b : Int × CalEvent) : Bool :=
  decide (-a.1 < -b.1) ||
    (decide (-a.1 = -b.1) &&
      decide (proximityKey targetStart a.2 ≤ proximityKey targetStart b.2))

/-- The titled branch of `CalendarService.find_event` (lines 322-370), given
the events fetched for the search window: empty fetch returns `None`;
events without a title are filtered out; the rest are scored, sorted by
score descending then proximity, and the top match is returned — also in
the low-confidence branch (score below 75), which only logs a warning. -/
def find_event_titled (ratio : String → String → Int) (title : String)
    (targetStart : Int) (events : List CalEvent) : Option CalEvent :=
  if events.isEmpty then none
  else
    let queryTitle := pyLower (pyStrip title)
    let scored := titledScored ratio queryTitle events
    if scored.isEmpty then none
    else
      match insertionSortB (scoredLe targetStart) scored with
      | [] => none
      | best :: _ =>
        if best.1 ≥ 75 then some best.2
        else some best.2

/-- Python strptime `%H` (TimeRE `2[0-3]|[0-1]\d|\d`): ordered alternation;
the keyword first letters make backtracking irrelevant in the formats used
here because a longer digit match failing later can never be rescued by a
shorter one. -/
def parseHourH : List Char → Option (Nat × List Char)
  | [] => none
  | c :: rest =>
    if c = '2' then
      match rest with
      | c2 :: rest2 =>
        if '0' ≤ c2 ∧ c2 ≤ '3' then some (20 + digitVal c2, rest2)
        else some (2, rest)
      | [] => some (2, [])
    else if c = '0' ∨ c = '1' then
      match rest with
      | c2 :: rest2 =>
        if c2.isDigit then some (10 * digitVal c + digitVal c2, rest2)
        else some (digitVal c, rest)
      | [] => some (digitVal c, [])
    else if c.isDigit then some (digitVal c, rest)
    else none

/-- Python strptime `%M` (TimeRE `[0-5]\d|\d`). -/
def parseMin : List Char → Option (Nat × List Char)
  | [] => none
  | c :: rest =>
    if '0' ≤ c ∧ c ≤ '5' then
      match rest with
      | c2 :: rest2 =>
        if c2.isDigit then some (10 * digitVal c + digitVal c2, rest2)
        else some (digitVal c, rest)
      | [] => some (digitVal c, [])
    else if c.isDigit then some (digitVal c, rest)
    else none

/-- Python strptime `%I` (TimeRE `1[0-2]|0[1-9]|[1-9]`). -/
def parseHourI : List Char → Option (Nat × List Char)
  | [] => none
  | c :: rest =>
    if c = '1' then
      match rest with
      | c2 :: rest2 =>
        if '0' ≤ c2 ∧ c2 ≤ '2' then some (10 + digitVal c2, rest2)
        else some (1, rest)
      | [] => some (1, [])
    else if c = '0' then
      match rest with
      | c2 :: rest2 =>
        if '1' ≤ c2 ∧ c2 ≤ '9' then some (digitVal c2, rest2) else none
      | [] => none
    else if c.isDigit then some (digitVal c, rest)
    else none

/-- Python strptime `%p` (TimeRE `AM|PM`, compiled with IGNORECASE);
returns `true` for PM. -/
def parseAmPm : List Char → Option (Bool × List Char)
  | a :: m :: rest =>
    if m.toLower = 'm' then
      if a.toLower = 'a' then some (false, rest)
      else if a.toLower = 'p' then some (true, rest)
      else none
    else none
  | _ => none

/-- Whitespace in a strptime format string is compiled to `\s+`. -/
def parseWs1 (s : List Char) : Option (List Char) :=
  match s with
  | c :: rest =>
    if c.isWhitespace then some (rest.dropWhile Char.isWhitespace) else none
  | [] => none

/-- A literal format character. -/
def parseLit (c : Char) : List Char → Option (List Char)
  | x :: rest => if x = c then some rest else none
  | [] => none

/-- Python strptime `%Y` (TimeRE `\d\d\d\d`). -/
def parseYear4 : List Char → Option (Nat × List Char)
  | a :: b :: c :: d :: rest =>
    if a.isDigit ∧ b.isDigit ∧ c.isDigit ∧ d.isDigit then
      some (digitVal a * 1000 + digitVal b * 100 + digitVal c * 10 +
        digitVal d, rest)
    else none
  | _ => none

/-- Python strptime `%m` (TimeRE `1[0-2]|0[1-9]|[1-9]`), same pattern as
`%I`. -/
def parseMonth (s : List Char) : Option (Nat × List Char) := parseHourI s

/-- Python strptime `%d` (TimeRE `3[01]|[12]\d|0[1-9]|[1-9]`). -/
def parseDay : List Char → Option (Nat × List Char)
  | [] => none
  | c :: rest =>
    if c = '3' then
      match rest with
      | c2 :: rest2 =>
        if c2 = '0' ∨ c2 = '1' then some (30 + digitVal c2, rest2)
        else some (3, rest)
      | [] => some (3, [])
    else if c = '1' ∨ c = '2' then
      match rest with
      | c2 :: rest2 =>
        if c2.isDigit then some (10 * digitVal c + digitVal c2, rest2)
        else some (digitVal c, rest)
      | [] => some (digitVal c, [])
    else if c = '0' then
      match rest with
      | c2 :: rest2 =>
        if '1' ≤ c2 ∧ c2 ≤ '9' then some (digitVal c2, rest2) else none
      | [] => none
    else if c.isDigit then some (digitVal c, rest)
    else none

/-- strptime's 12-hour to 24-hour conversion under `%I` with `%p`. -/
def hour12to24 (h : Nat) (pm : Bool) : Nat :=
  h % 12 + (if pm then 12 else 0)

/-- Full match of the format `"%H:%M"` (strptime requires the whole string
to be consumed). -/
def matchFmtHM (s : List Char) : Option (Nat × Nat) := do
  let (h, r1) ← parseHourH s
  let r2 ← parseLit ':' r1
  let (mi, r3) ← parseMin r2
  if r3.isEmpty then pure (h, mi) else none

/-- Full match of the format `"%I:%M %p"`. -/
def matchFmtIMSpP (s : List Char) : Option (Nat × Nat) := do
  let (h, r1) ← parseHourI s
  let r2 ← parseLit ':' r1
  let (mi, r3) ← parseMin r2
  let r4 ← parseWs1 r3
  let (pm, r5) ← parseAmPm r4
  if r5.isEmpty then pure (hour12to24 h pm, mi) else none

/-- Full match of the format `"%I:%M%p"`. -/
def matchFmtIMP (s : List Char) : Option (Nat × Nat) := do
  let (h, r1) ← parseHourI s
  let r2 ← parseLit ':' r1
  let (mi, r3) ← parseMin r2
  let (pm, r4) ← parseAmPm r3
  if r4.isEmpty then pure (hour12to24 h pm, mi) else none

/-- Full match of the format `"%I %p"`. -/
def matchFmtISpP (s : List Char) : Option Nat := do
  let (h, r1) ← parseHourI s
  let r2 ← parseWs1 r1
  let (pm, r3) ← parseAmPm r2
  if r3.isEmpty then pure (hour12to24 h pm) else none

/-- Full match of the format `"%I%p"`. -/
def matchFmtIP (s : List Char) : Option Nat := do
  let (h, r1) ← parseHourI s
  let (pm, r2) ← parseAmPm r1
  if r2.isEmpty then pure (hour12to24 h pm) else none

/-- Full match of the format `"%H"`. -/
def matchFmtH (s : List Char) : Option Nat := do
  let (h, r1) ← parseHourH s
  if r1.isEmpty then pure h else none

/-- Full match of the format `"%Y-%m-%d"`. -/
def matchFmtYmd (s : List Char) : Option (Nat × Nat × Nat) := do
  let (y, r1) ← parseYear4 s
  let r2 ← parseLit '-' r1
  let (m, r3) ← parseMonth r2
  let r4 ← parseLit '-' r3
  let (d, r5) ← parseDay r4
  if r5.isEmpty then pure (y, m, d) else none

/-- `validation.is_valid_time` (validation.py lines 12-44): the input is
stripped and upper-cased, then tried against the six supported formats. -/
def is_valid_time (timeStr : String) : Bool :=
  if timeStr = "" then false
  else
    let s := (stripChars timeStr.data).map Char.toUpper
    (matchFmtHM s).isSome || (matchFmtIMSpP s).isSome ||
    (matchFmtIMP s).isSome || (matchFmtISpP s).isSome ||
    (matchFmtIP s).isSome || (matchFmtH s).isSome

/-- Gregorian leap year, as `datetime` uses. -/
def isLeapYear (y : Nat) : Bool :=
  (y % 4 == 0 && y % 100 != 0) || y % 400 == 0

/-- Number of days of a month, as `datetime` validates. -/
def daysInMonth (y m : Nat) : Nat :=
  if m = 2 then (if isLeapYear y then 29 else 28)
  else if m = 4 ∨ m = 6 ∨ m = 9 ∨ m = 11 then 30 else 31

/-- `validation.is_valid_date` (validation.py lines 4-9):
`strptime(date_str, "%Y-%m-%d")` succeeds iff the pattern fully matches and
`datetime` accepts the fields (year at least 1, day within the month). -/
def is_valid_date (dateStr : String) : Bool :=
  match matchFmtYmd dateStr.data with
  | some (y, m, d) => decide (1 ≤ y) && decide (d ≤ daysInMonth y m)
  | none => false

/-- Two-digit zero-padded rendering, as strftime `%H`/`%M`. -/
def pad2 (n : Nat) : String := if n < 10 then "0" ++ toString n else toString n

/-- strftime `"%H:%M"`. -/
def fmtHM (h mi : Nat) : String := pad2 h ++ ":" ++ pad2 mi

/-- `CalendarService.convert_time_to_24hour` (lines 240-264): the stripped
input is tried against `%H:%M`, `%I:%M %p` and `%I:%M%p` only; on success
the time is re-rendered as `%H:%M`, otherwise a `ValueError` is raised
(`none`). -/
def convert_time_to_24hour (timeStr : String) : Option String :=
  if timeStr = "" then none
  else
    let s := stripChars timeStr.data
    match matchFmtHM s with
    | some (h, mi) => some (fmtHM h mi)
    | none =>
      match matchFmtIMSpP s with
      | some (h, mi) => some (fmtHM h mi)
      | none =>
        match matchFmtIMP s with
        | some (h, mi) => some (fmtHM h mi)
        | none => none

/-- Outcome of a Google calendar API call, the external collaborator. -/
inductive ApiResult (α : Type) where
  | ok (val : α)
  | err (msg : String)
deriving DecidableEq, Repr

/-- `CalendarService.fetch_existing_events` (lines 654-701): the entire
body, including the argument type check that raises `ValueError`, runs
inside the `try`, and the `except` returns `[]`.  `argsAreDatetimes` models
the `isinstance` check on `start_dt`/`end_dt`; `api` models the outcome of
the `events().list(...)` call. -/
def fetch_existing_events (argsAreDatetimes : Bool)
    (api : ApiResult (List GEvent)) : List GEvent :=
  if argsAreDatetimes then
    match api with
    | .ok events => events
    | .err _ => []
  else []

/-- The fields of `gpt_data` read by `intelligent_schedule_handler`;
`timezone` defaults to `'UTC'` at the read site. -/
structure GptData where
  title : Option String
  date : Option String
  time : Option String
  timezone : String
deriving DecidableEq, Repr

/-- `not title or not title.strip()` (line 503). -/
def titleBlank (t : Option String) : Bool :=
  match t with
  | none => true
  | some v => v = "" || pyStrip v = ""

/-- `not date_str or not is_valid_date(date_str)` (line 505). -/
def dateMissing (d : Option String) : Bool :=
  match d with
  | none => true
  | some v => v = "" || !is_valid_date v

/-- `not time_str or not is_valid_time(time_str)` (line 507). -/
def timeMissing (t : Option String) : Bool :=
  match t with
  | none => true
  | some v => v = "" || !is_valid_time v

/-- The missing-field collection of `intelligent_schedule_handler` (lines
501-512); `tzValid` models `validate_timezone` not raising for the given
timezone identifier. -/
def handlerMissing (g : GptData) (tzValid : Bool) : List String :=
  (if titleBlank g.title then ["title"] else []) ++
  (if dateMissing g.date then ["date"] else []) ++
  (if timeMissing g.time then ["time"] else []) ++
  (if !tzValid then ["timezone"] else [])

/-- Result dict statuses of `intelligent_schedule_handler`. -/
inductive HandlerResult where
  | missing_info (missing : List String)
  | error (msg : String)
  | conflict (suggestions : List Slot)
  | scheduled (startT endT : Int)
deriving DecidableEq, Repr

/-- Days between a Gregorian civil date and 1970-01-01 (the standard
days-from-civil computation), used to place `strptime`-parsed wall-clock
fields on the minute scale. -/
def daysFromCivil (y m d : Int) : Int :=
  let yAdj := if m ≤ 2 then y - 1 else y
  let era := Int.fdiv yAdj 400
  let yoe := yAdj - era * 400
  let doy := Int.fdiv (153 * (m + (if m > 2 then -3 else 9)) + 2) 5 + d - 1
  let doe := yoe * 365 + Int.fdiv yoe 4 - Int.fdiv yoe 100 + doy
  era * 146097 + doe - 719468

/-- `CalendarService.intelligent_schedule_handler` (lines 494-573), for a
fixed-offset timezone of `tzOffset` minutes.  Missing or invalid required
fields yield `missing_info` with the full list; then the time is converted
to 24-hour form — a `ValueError` there (or in re-parsing) is caught and
yields the `'error'` status with the invalid-date/time message — and the
localized start instant is computed; `api` models the
`fetch_existing_events` call over `[start - buffer, end + buffer]` and
`nextDayApi` the next-day fetch inside `suggest_multiple_slots`; a conflict
yields the suggestions, otherwise the event is booked for
`[start, start + DEFAULT_MEETING_DURATION]`. -/
def intelligent_schedule_handler (g : GptData) (tzValid : Bool)
    (tzOffset : Int) (api nextDayApi : ApiResult (List GEvent)) (now : Int) :
    HandlerResult :=
  let missing := handlerMissing g tzValid
  if missing ≠ [] then .missing_info missing
  else
    match g.date, g.time with
    | some dateStr, some timeStr =>
      match convert_time_to_24hour timeStr with
      | none => .error "Invalid date/time format"
      | some t24 =>
        match matchFmtYmd dateStr.data, matchFmtHM t24.data with
        | some (y, m, d), some (h, mi) =>
          let startDt := daysFromCivil y m d * 1440 + (h : Int) * 60 +
            (mi : Int) - tzOffset
          let endDt := startDt + DEFAULT_MEETING_DURATION
          let existingEvents := fetch_existing_events true api
          if has_conflict_with_buffer existingEvents startDt endDt then
            .conflict (suggest_multiple_slots existingEvents startDt
              DEFAULT_MEETING_DURATION 3 (fetch_existing_events true
                nextDayApi) now)
          else .scheduled startDt endDt
        | _, _ => .error "Invalid date/time format"
    | _, _ => .error "Invalid date/time format"

/-- The accumulated meeting fields (`partial_meeting_details` and the
normalised entity map of `fill_missing_fields_async`, in which plural
`dates`/`times` keys have been folded into `date`/`time`). -/
structure Entities where
  title : Option String
  date : Option String
  time : Option String
deriving DecidableEq, Repr

/-- `{**partial_details, **normalized_entities}`: fields present in the new
entities overwrite the stored partial details. -/
def combineEntities (partialDetails entities : Entities) : Entities :=
  ⟨entities.title.orElse fun _ => partialDetails.title,
   entities.date.orElse fun _ => partialDetails.date,
   entities.time.orElse fun _ => partialDetails.time⟩

/-- The live `is_invalid` computation of the required-field loop of
`fill_missing_fields_async` (conversation_flow.py lines 146-148): only the
date and time cases assign it; there is no title case. -/
def isInvalidField (combined : Entities) (field : String) : Bool :=
  if field = "date" then
    match combined.date with
    | none => true
    | some v => v = "" || !is_valid_date v
  else if field = "time" then
    match combined.time with
    | none => true
    | some v => v = "" || !is_valid_time v
  else false

/-- `conversation_flow.REQUIRED_FIELDS`. -/
def REQUIRED_FIELDS : List String := ["title", "date", "time"]

/-- `fill_missing_fields_async` (conversation_flow.py lines 118-166), on the
normalised entities and the stored partial details.  The required-field
loop evaluates `is_invalid` per field, but the branch that would store the
partial details, send a clarification request and return `None` (lines
151-155) is commented out in the source, so the function always returns the
combined details; the second component lists the clarification prompts
sent, which is therefore always empty. -/
def fill_missing_fields_async (entities partialDetails : Entities) :
    Option Entities × List String :=
  let combined := combineEntities partialDetails entities
  (some combined, [])

/-- The per-event branch of `has_conflict_with_buffer` holds iff the event has
both endpoints and they violate the buffered separation. -/
theorem event_overlap_iff (e : GEvent) (newStart newEnd : Int) :
    (match e.startT, e.endT with
      | some s, some en => overlapsBuffered newStart newEnd s en
      | _, _ => false) = true ↔
    ∃ s en, e.startT = some s ∧ e.endT = some en ∧
      ¬ (newEnd ≤ s - BUFFER_MINUTES ∨ newStart ≥ en + BUFFER_MINUTES) := by
  rcases e with ⟨st, en⟩
  cases st <;> cases en <;>
    simp [overlapsBuffered, BUFFER_MINUTES, not_or]

/-- C1: for every list of existing events and candidate interval,
`has_conflict_with_buffer` returns true iff some event with both endpoints
present violates the 15-minute buffered separation against the candidate
(endpoint normalisation to the candidate's timezone preserves instants);
in particular, against a single 14:00-15:00 UTC event, a 14:50-15:50
candidate conflicts and a 15:20-16:20 candidate does not. -/
theorem has_conflict_with_buffer_iff :
    (∀ (events : List GEvent) (newStart newEnd : Int),
      has_conflict_with_buffer events newStart newEnd = true ↔
        ∃ e ∈ events, ∃ s en, e.startT = some s ∧ e.endT = some en ∧
          ¬ (newEnd ≤ s - BUFFER_MINUTES ∨ newStart ≥ en + BUFFER_MINUTES)) ∧
    has_conflict_with_buffer [⟨some 840, some 900⟩] 890 950 = true ∧
    has_conflict_with_buffer [⟨some 840, some 900⟩] 920 980 = false := by
  refine ⟨fun events newStart newEnd => ?_, by decide, by decide⟩
  rw [has_conflict_with_buffer, List.any_eq_true]
  exact exists_congr fun e =>
    and_congr_right fun _ => event_overlap_iff e newStart newEnd

/-- C6: `suggest_next_slot` is the sweep over the events in ascending start
order: with no events it returns the desired start unchanged; at each event
with both endpoints, the cursor is returned when the meeting fits at or
before `event.start - buffer`, else the cursor advances past
`event.end + buffer`; and for desired start 14:00 (minute 840), duration 60
and a single 14:00-15:30 event it returns 15:45 (minute 945). -/
theorem suggest_next_slot_sweep :
    (∀ desiredStart dur : Int, suggest_next_slot [] desiredStart dur =
      desiredStart) ∧
    (∀ (s en : Int) (rest : List GEvent) (cur dur : Int),
      nextSlotLoop dur (⟨some s, some en⟩ :: rest) cur =
        if cur + dur ≤ s - BUFFER_MINUTES then cur
        else nextSlotLoop dur rest (max cur (en + BUFFER_MINUTES))) ∧
    (∀ (events : List GEvent) (desiredStart dur : Int),
      suggest_next_slot events desiredStart dur =
        nextSlotLoop dur (sortByStart events) desiredStart) ∧
    suggest_next_slot [⟨some 840, some 930⟩] 840 60 = 945 := by
  exact ⟨fun _ _ => rfl, fun _ _ _ _ _ => rfl, fun _ _ _ => rfl, by decide⟩

/-- Counterexample to C2's conflict-freeness: with events 09:00-12:45 and
14:00-15:00 (minutes 540-765 and 840-900) and a desired 14:00 (840) slot of
60 minutes, the `earlier_same_day` strategy returns 13:00-14:00 (780-840),
which `has_conflict_with_buffer` rejects against the 14:00 event: the range
search of `_find_available_slot_in_range` skipped that event because its
start is not before the range end. -/
theorem suggest_multiple_slots_conflicting_slot :
    (suggest_multiple_slots [⟨some 540, some 765⟩, ⟨some 840, some 900⟩]
        840 60 3 [] 0).any
      (fun s => has_conflict_with_buffer
        [⟨some 540, some 765⟩, ⟨some 840, some 900⟩] s.startT s.endT) = true ∧
    (suggest_multiple_slots [⟨some 540, some 765⟩, ⟨some 840, some 900⟩]
        840 60 3 [] 0).map Slot.startT = [915, 780, 2280] := by
  exact ⟨by decide, by decide⟩

/-- The dedup loop keeps the starts of the accumulated list pairwise
distinct, assuming every accumulated start is recorded in `seen`. -/
theorem dedupLoop_pairwise (n : Nat) (pending : List Slot) (seen : List Int)
    (unique : List Slot)
    (hseen : ∀ s ∈ unique, seen.contains s.startT = true)
    (hpw : unique.Pairwise fun a b => a.startT ≠ b.startT) :
    (dedupLoop n pending seen unique).Pairwise
      fun a b => a.startT ≠ b.startT := by
  induction pending generalizing seen unique with
  | nil => simpa [dedupLoop] using hpw
  | cons s rest ih =>
    rw [dedupLoop]
    by_cases hc : seen.contains s.startT = true
    · simp only [hc, if_true]
      exact ih seen unique hseen hpw
    · simp only [hc, if_false]
      have hnotin : ∀ a ∈ unique, a.startT ≠ s.startT := by
        intro a ha hina
        exact hc (hina ▸ hseen a ha)
      have hpw' : (unique ++ [s]).Pairwise
          fun a b => a.startT ≠ b.startT := by
        rw [List.pairwise_append]
        exact ⟨hpw, List.pairwise_singleton _ s,
          fun a ha b hb => (List.mem_singleton.mp hb) ▸ hnotin a ha⟩
      by_cases hlen : n ≤ (unique ++ [s]).length
      · simp only [hlen, if_true]
        exact hpw'
      · simp only [hlen, if_false]
        refine ih _ _ ?_ hpw'
        intro t ht
        rcases List.mem_append.mp ht with ht | ht
        · have h2 : t.startT ∈ seen := by simpa using hseen t ht
          simp [List.contains_cons, h2]
        · simp [List.mem_singleton.mp ht, List.contains_cons]

/-- The final dedup-and-truncate step never returns more than the requested
number of slots. -/
theorem dedupTake_length_le (n : Nat) (sugs : List Slot) :
    (dedupTake n sugs).length ≤ n := by
  rw [dedupTake]
  exact List.length_take_le n _

/-- The final dedup-and-truncate step returns pairwise distinct start
timestamps. -/
theorem dedupTake_pairwise (n : Nat) (sugs : List Slot) :
    (dedupTake n sugs).Pairwise fun a b => a.startT ≠ b.startT :=
  List.Pairwise.sublist (List.take_sublist n _)
    (dedupLoop_pairwise n sugs [] [] (by simp) (by simp))

/-- C2 (amended): `suggest_multiple_slots` returns at most the requested
number of suggestions and no two returned suggestions share a start
timestamp; conflict-freeness of every returned slot does not hold (see the
counterexample), because the `earlier_same_day` range search ignores events
starting at or after the desired start. -/
theorem suggest_multiple_slots_count_nodup :
    ∀ (existingEvents : List GEvent) (desiredStart durationMinutes : Int)
      (numSuggestions : Nat) (nextDayEvents : List GEvent) (now : Int),
      (suggest_multiple_slots existingEvents desiredStart durationMinutes
          numSuggestions nextDayEvents now).length ≤ numSuggestions ∧
      (suggest_multiple_slots existingEvents desiredStart durationMinutes
          numSuggestions nextDayEvents now).Pairwise
        fun a b => a.startT ≠ b.startT := by
  intro existingEvents desiredStart durationMinutes numSuggestions
    nextDayEvents now
  simp only [suggest_multiple_slots]
  exact ⟨dedupTake_length_le _ _, dedupTake_pairwise _ _⟩

/-- C3: the selection parser checks rejection keywords before any index
pattern, with a word boundary on `no`: the input `"no"` yields the
rejection result `'different'` for every session state (never an index);
the rejection check does not fire on `"number"` or `"know"`; and the phrase
`"actually none of these, cancel"` yields `'different'` even though it
contains the ordinal word `one`. -/
theorem selection_rejection_checked_first :
    (∀ suggestions : List Slot,
      process_conflict_selection ("no".toList) suggestions =
        Selection.different) ∧
    isRejection ("number".toList) = false ∧
    isRejection ("know".toList) = false ∧
    (∀ suggestions : List Slot,
      process_conflict_selection ("actually none of these, cancel".toList)
        suggestions = Selection.different) := by
  exact ⟨fun _ => rfl, by decide, by decide, fun _ => rfl⟩

/-- Counterexample to C4: with three stored suggestions, the input
`"the third one"` does not parse to index 3 (it parses to index 1, because
the pattern group for index 1 is tested first and the whole word `one`
matches it). -/
theorem parse_the_third_one_not_three :
    process_conflict_selection ("the third one".toList) sampleSuggestions ≠
      Selection.index 3 ∧
    process_conflict_selection ("the third one".toList) sampleSuggestions =
      Selection.index 1 := by
  exact ⟨by decide, by decide⟩

/-- C4 (amended): the ordinal mappings are `first/one/1st` to 1,
`second/two/2nd` to 2, `third/three/3rd` to 3, but the three pattern groups
are tested in that fixed order and the first whole-word match wins, so
`"the third one"` parses to 1 (the word `one` matches the first group),
while `"the third"` parses to 3. -/
theorem parse_ordinal_first_match :
    process_conflict_selection ("the third one".toList) sampleSuggestions =
      Selection.index 1 ∧
    process_conflict_selection ("the third".toList) sampleSuggestions =
      Selection.index 3 := by
  exact ⟨by decide, by decide⟩

/-- C5: a numeric selection is accepted only within the bounds of the
stored suggestion count: for every session whose conflict data stores
exactly 3 suggestions, the input `"option 9"` parses to no index (`None`). -/
theorem selection_out_of_bounds_none :
    ∀ suggestions : List Slot, suggestions.length = 3 →
      process_conflict_selection ("option 9".toList) suggestions =
        Selection.noSelection := by
  intro suggestions h
  simp only [process_conflict_selection, h]
  decide

/-- Witness for C5 at a concrete three-suggestion session. -/
theorem selection_out_of_bounds_none_witness :
    process_conflict_selection ("option 9".toList) sampleSuggestions =
      Selection.noSelection :=
  selection_out_of_bounds_none sampleSuggestions (by decide)

/-- Stable insertion never produces the empty list. -/
theorem orderedInsertB_ne_nil (le : α → α → Bool) (a : α) (l : List α) :
    orderedInsertB le a l ≠ [] := by
  cases l with
  | nil => simp [orderedInsertB]
  | cons b l =>
    rw [orderedInsertB]
    split <;> simp

/-- Membership through stable insertion. -/
theorem mem_orderedInsertB (le : α → α → Bool) (a x : α) (l : List α) :
    x ∈ orderedInsertB le a l ↔ x = a ∨ x ∈ l := by
  induction l with
  | nil => simp [orderedInsertB]
  | cons b l ih =>
    rw [orderedInsertB]
    cases hle : le a b
    · rw [if_neg (by simp)]
      simp only [List.mem_cons, ih]
      tauto
    · rw [if_pos rfl]
      simp [List.mem_cons]

/-- Membership through the stable sort. -/
theorem mem_insertionSortB (le : α → α → Bool) (x : α) (l : List α) :
    x ∈ insertionSortB le l ↔ x ∈ l := by
  induction l with
  | nil => simp [insertionSortB]
  | cons a l ih =>
    rw [insertionSortB]
    simp [mem_orderedInsertB, ih]

/-- Stable insertion into a pairwise-ordered list keeps it ordered, for a
total transitive comparison. -/
theorem pairwise_orderedInsertB (le : α → α → Bool)
    (htrans : ∀ a b c, le a b = true → le b c = true → le a c = true)
    (htot : ∀ a b, le a b = true ∨ le b a = true) (a : α) (l : List α)
    (hl : l.Pairwise fun x y => le x y = true) :
    (orderedInsertB le a l).Pairwise fun x y => le x y = true := by
  induction l with
  | nil => simp [orderedInsertB]
  | cons b l ih =>
    rw [List.pairwise_cons] at hl
    obtain ⟨hb, hl'⟩ := hl
    rw [orderedInsertB]
    cases hle : le a b
    · rw [if_neg (by simp)]
      rw [List.pairwise_cons]
      refine ⟨?_, ih hl'⟩
      intro y hy
      rcases (mem_orderedInsertB le a y l).mp hy with h | hy
      · rw [h]
        rcases htot a b with h' | h'
        · rw [hle] at h'
          exact absurd h' (by simp)
        · exact h'
      · exact hb y hy
    · rw [if_pos rfl]
      rw [List.pairwise_cons]
      refine ⟨?_, List.pairwise_cons.mpr ⟨hb, hl'⟩⟩
      intro y hy
      rcases List.mem_cons.mp hy with rfl | hy
      · exact hle
      · exact htrans a b y hle (hb y hy)

/-- The stable sort produces a pairwise-ordered list, for a total
transitive comparison. -/
theorem pairwise_insertionSortB (le : α → α → Bool)
    (htrans : ∀ a b c, le a b = true → le b c = true → le a c = true)
    (htot : ∀ a b, le a b = true ∨ le b a = true) (l : List α) :
    (insertionSortB le l).Pairwise fun x y => le x y = true := by
  induction l with
  | nil => simp [insertionSortB]
  | cons a l ih =>
    rw [insertionSortB]
    exact pairwise_orderedInsertB le htrans htot a _ ih

/-- The scored comparison is reflexive. -/
theorem scoredLe_refl (t : Int) (a : Int × CalEvent) :
    scoredLe t a a = true := by
  simp [scoredLe]

/-- The scored comparison is transitive. -/
theorem scoredLe_trans (t : Int) (a b c : Int × CalEvent)
    (hab : scoredLe t a b = true) (hbc : scoredLe t b c = true) :
    scoredLe t a c = true := by
  simp only [scoredLe, Bool.or_eq_true, Bool.and_eq_true,
    decide_eq_true_eq] at *
  omega

/-- The scored comparison is total. -/
theorem scoredLe_total (t : Int) (a b : Int × CalEvent) :
    scoredLe t a b = true ∨ scoredLe t b a = true := by
  simp only [scoredLe, Bool.or_eq_true, Bool.and_eq_true,
    decide_eq_true_eq]
  omega

/-- The sorted scored list is empty only for an empty scored list. -/
theorem insertionSortB_eq_nil (le : α → α → Bool) (l : List α)
    (h : insertionSortB le l = []) : l = [] := by
  cases l with
  | nil => rfl
  | cons a l => exact absurd h (orderedInsertB_ne_nil le a _)

/-- C7: in the titled branch of `find_event`, every titled event is scored
case-insensitively and the top-ranked event under score-descending,
proximity-tie-broken order is returned, independently of the 75-point
confidence threshold; and when no event in the window has a title, the
result is `None`. -/
theorem find_event_titled_top_ranked :
    ∀ (ratio : String → String → Int) (title : String) (targetStart : Int)
      (events : List CalEvent),
      (titledScored ratio (pyLower (pyStrip title)) events = [] →
        find_event_titled ratio title targetStart events = none) ∧
      (∀ b, find_event_titled ratio title targetStart events = some b →
        ∃ sb, (sb, b) ∈ titledScored ratio (pyLower (pyStrip title)) events ∧
          ∀ p ∈ titledScored ratio (pyLower (pyStrip title)) events,
            scoredLe targetStart (sb, b) p = true) ∧
      (∀ best rest,
        insertionSortB (scoredLe targetStart)
            (titledScored ratio (pyLower (pyStrip title)) events) =
          best :: rest →
        find_event_titled ratio title targetStart events = some best.2) := by
  intro ratio title targetStart events
  have hsome : ∀ best rest,
      insertionSortB (scoredLe targetStart)
          (titledScored ratio (pyLower (pyStrip title)) events) =
        best :: rest →
      find_event_titled ratio title targetStart events = some best.2 := by
    intro best rest hsort
    have hscored : titledScored ratio (pyLower (pyStrip title)) events ≠
        [] := by
      intro h
      rw [h] at hsort
      exact List.noConfusion hsort
    have hev : events ≠ [] := by
      intro h
      exact hscored (by simp [h, titledScored])
    rw [find_event_titled]
    simp only [List.isEmpty_iff, hev, if_false, hscored, hsort]
    split <;> rfl
  refine ⟨?_, ?_, hsome⟩
  · intro h
    rw [find_event_titled]
    by_cases hev : events.isEmpty
    · simp [hev]
    · simp [hev, h]
  · intro b hb
    cases hsort : insertionSortB (scoredLe targetStart)
        (titledScored ratio (pyLower (pyStrip title)) events) with
    | nil =>
      have hnil := insertionSortB_eq_nil _ _ hsort
      rw [find_event_titled] at hb
      by_cases hev : events.isEmpty <;> simp [hev, hnil] at hb
    | cons best rest =>
      have hbb : b = best.2 := by
        have := hsome best rest hsort
        rw [this] at hb
        exact (Option.some_inj.mp hb).symm
      subst hbb
      refine ⟨best.1, ?_, ?_⟩
      · have hmem : best ∈ insertionSortB (scoredLe targetStart)
            (titledScored ratio (pyLower (pyStrip title)) events) := by
          rw [hsort]
          exact List.mem_cons_self best rest
        exact (mem_insertionSortB _ _ _).mp hmem
      · intro p hp
        have hpmem : p ∈ insertionSortB (scoredLe targetStart)
            (titledScored ratio (pyLower (pyStrip title)) events) :=
          (mem_insertionSortB _ _ _).mpr hp
        rw [hsort] at hpmem
        have hpw := pairwise_insertionSortB (scoredLe targetStart)
          (scoredLe_trans targetStart) (scoredLe_total targetStart)
          (titledScored ratio (pyLower (pyStrip title)) events)
        rw [hsort, List.pairwise_cons] at hpw
        rcases List.mem_cons.mp hpmem with rfl | hpmem
        · exact scoredLe_refl targetStart p
        · exact hpw.1 p hpmem

/-- Witness for C7: a concrete scorer valuing every comparison at 50 (below
the 75 threshold) still returns the single titled event as top match. -/
theorem find_event_titled_top_ranked_witness :
    ∃ sb, (sb, (⟨some "team standup", none, 100⟩ : CalEvent)) ∈
        titledScored (fun _ _ => (50 : Int)) (pyLower (pyStrip "Standup"))
          [⟨some "team standup", none, 100⟩] ∧
      ∀ p ∈ titledScored (fun _ _ => (50 : Int)) (pyLower (pyStrip "Standup"))
          [⟨some "team standup", none, 100⟩],
        scoredLe 0 (sb, (⟨some "team standup", none, 100⟩ : CalEvent)) p =
          true :=
  (find_event_titled_top_ranked (fun _ _ => (50 : Int)) "Standup" 0
      [⟨some "team standup", none, 100⟩]).2.1
    ⟨some "team standup", none, 100⟩ (by decide)

/-- C9: `fetch_existing_events` never raises — invalid arguments or a
failing calendar call both yield the empty list (the `ValueError` for
non-datetime arguments is raised inside the function's own `try` and caught
by its `except`); the conflict check over an empty result reports no
conflict, so `intelligent_schedule_handler` behaves on a failed calendar
fetch exactly as on an empty calendar and proceeds to schedule. -/
theorem fetch_existing_events_failure_empty :
    (∀ api : ApiResult (List GEvent), fetch_existing_events false api = []) ∧
    (∀ (argsAreDatetimes : Bool) (msg : String),
      fetch_existing_events argsAreDatetimes (ApiResult.err msg) = []) ∧
    (∀ newStart newEnd : Int,
      has_conflict_with_buffer [] newStart newEnd = false) ∧
    (∀ (g : GptData) (tzValid : Bool) (tzOffset : Int) (msg : String)
      (nextDayApi : ApiResult (List GEvent)) (now : Int),
      intelligent_schedule_handler g tzValid tzOffset (ApiResult.err msg)
          nextDayApi now =
        intelligent_schedule_handler g tzValid tzOffset (ApiResult.ok [])
          nextDayApi now) := by
  refine ⟨fun _ => rfl, fun b msg => ?_, fun _ _ => rfl,
    fun g tzValid tzOffset msg nextDayApi now => rfl⟩
  cases b <;> rfl

/-- C8 evaluated at a failing input: with no stored partial details and an
entity map supplying none of title, date and time, `fill_missing_fields_async`
returns the combined details and emits no clarification prompt (its
validation branch is commented out) even though the date and time fields
are computed invalid, and `intelligent_schedule_handler` then returns a
single `missing_info` result listing all three missing fields at once — no
targeted per-field clarification and no booking. -/
theorem fill_missing_fields_no_prompt :
    fill_missing_fields_async ⟨none, none, none⟩ ⟨none, none, none⟩ =
      (some ⟨none, none, none⟩, []) ∧
    isInvalidField ⟨none, none, none⟩ "date" = true ∧
    isInvalidField ⟨none, none, none⟩ "time" = true ∧
    intelligent_schedule_handler ⟨none, none, none, "UTC"⟩ true 0
        (ApiResult.ok []) (ApiResult.ok []) 0 =
      HandlerResult.missing_info ["title", "date", "time"] := by
  exact ⟨rfl, by decide, by decide, by decide⟩

/-- C10: the time validator and converter disagree — `is_valid_time`
accepts `"5 PM"` and `"17"` (formats `%I %p` and `%H`) while
`convert_time_to_24hour` supports only `%H:%M`, `%I:%M %p` and `%I:%M%p`
and raises `ValueError` on them; for such an input
`intelligent_schedule_handler` does not list `time` among the missing
fields but returns the `'error'` status with the invalid-date/time message,
and no event is booked. -/
theorem valid_time_convert_disagree :
    is_valid_time "5 PM" = true ∧ convert_time_to_24hour "5 PM" = none ∧
    is_valid_time "17" = true ∧ convert_time_to_24hour "17" = none ∧
    handlerMissing ⟨some "Team Sync", some "2025-12-15", some "5 PM", "UTC"⟩
      true = [] ∧
    intelligent_schedule_handler
        ⟨some "Team Sync", some "2025-12-15", some "5 PM", "UTC"⟩ true 0
        (ApiResult.ok []) (ApiResult.ok []) 0 =
      HandlerResult.error "Invalid date/time format" ∧
    intelligent_schedule_handler
        ⟨some "Team Sync", some "2025-12-15", some "17", "UTC"⟩ true 0
        (ApiResult.ok []) (ApiResult.ok []) 0 =
      HandlerResult.error "Invalid date/time format" := by
  refine ⟨by decide, by decide, by decide, by decide, by decide, by decide,
    by decide⟩

end VSA
